import Mathlib

/-!
Shallow embedding of the datalake entities exporter's schema-reconciliation
and row-reconciliation engine (`src/clients/bigquery.py`), together with
theorems settling the frozen claims about it.

Python dictionaries are modelled as insertion-ordered association lists,
Python sets of field names as `Finset String`, JSON values as an inductive
type, and the warehouse side effects of `create_or_update_table` as an
explicit trace of actions plus a threaded table state, with exception sites
driven by an explicit fault record.
-/

set_option autoImplicit false

namespace Datalake

/-- JSON-ish values as they appear in entity documents and rows. -/
inductive JValue where
  | null : JValue
  | bool (b : Bool) : JValue
  | num (n : Int) : JValue
  | str (s : String) : JValue
  | arr (xs : List JValue) : JValue
  | obj (fields : List (String × JValue)) : JValue

/-- Hex digit characters, for JSON control-character escapes. -/
def hexDigit (n : Nat) : Char :=
  if n < 10 then Char.ofNat (48 + n) else Char.ofNat (87 + n)

/-- Four-digit lowercase hex rendering, as in a JSON escape. -/
def hex4 (n : Nat) : String :=
  String.mk [hexDigit (n / 4096 % 16), hexDigit (n / 256 % 16),
             hexDigit (n / 16 % 16), hexDigit (n % 16)]

/-- Escape one character the way Python's `json.dumps` (default options) does. -/
def jsonEscapeChar (c : Char) : String :=
  if c = '"' then "\\\""
  else if c = '\\' then "\\\\"
  else if c = '\n' then "\\n"
  else if c = '\r' then "\\r"
  else if c = '\t' then "\\t"
  else if c = (Char.ofNat 8) then "\\b"
  else if c = (Char.ofNat 12) then "\\f"
  else if c.toNat < 32 ∨ c.toNat ≥ 127 then "\\u" ++ hex4 c.toNat
  else String.singleton c

/-- Escape a whole string for JSON output. -/
def jsonEscape (s : String) : String :=
  String.join (s.data.map jsonEscapeChar)

mutual

/-- Model of Python's `json.dumps` with its default separators:
items joined by a comma followed by a space, keys by a colon and a space. -/
def jsonDumps : JValue → String
  | .null => "null"
  | .bool b => if b then "true" else "false"
  | .num n => toString n
  | .str s => "\"" ++ jsonEscape s ++ "\""
  | .arr xs => "[" ++ String.intercalate ", " (jsonDumpsList xs) ++ "]"
  | .obj fs => "\x7b" ++ String.intercalate ", " (jsonDumpsObj fs) ++ "\x7d"

/-- Render each element of a JSON array. -/
def jsonDumpsList : List JValue → List String
  | [] => []
  | x :: xs => jsonDumps x :: jsonDumpsList xs

/-- Render each key/value pair of a JSON object. -/
def jsonDumpsObj : List (String × JValue) → List String
  | [] => []
  | (k, v) :: fs => ("\"" ++ jsonEscape k ++ "\": " ++ jsonDumps v) :: jsonDumpsObj fs

end

/-- A Python `dict` keyed by strings, as an insertion-ordered association list. -/
abbrev PyDict := List (String × JValue)

/-- Python dictionary assignment `d[k] = v`: an existing key keeps its
position and gets the new value, a new key is appended at the end. -/
def dictSet (d : PyDict) (k : String) (v : JValue) : PyDict :=
  if k ∈ d.map Prod.fst then
    d.map (fun p => if p.1 = k then (p.1, v) else p)
  else d ++ [(k, v)]

/-- Python dictionary lookup `d.get(k)`. -/
def dictGet (d : PyDict) (k : String) : Option JValue :=
  (d.find? (fun p => p.1 = k)).map Prod.snd

/-! ## Destination schema model (`bigquery.SchemaField`) -/

/-- One BigQuery schema field: name, field type, mode, optional description,
exactly the attributes `bigquery.py` sets. -/
structure SchemaField where
  name : String
  fieldType : String
  mode : String
  description : Option String := none
deriving DecidableEq, Repr

/-- A table schema: an ordered list of fields, as in the source. -/
abbrev Schema := List SchemaField

/-- The set of field names of a schema, as built by the set comprehensions
in `_get_new_schema_fields`, `_get_existing_schema_fields` and
`insert_entities`. -/
def fieldNames (s : Schema) : Finset String :=
  (s.map SchemaField.name).toFinset

/-! ## Blueprint model and schema mapper (`_create_schema_from_blueprint`) -/

/-- A property / calculation / aggregation descriptor from a blueprint:
the keys `_create_*_fields` reads with `.get`. -/
structure PropSpec where
  type : Option String := none
  format : Option String := none
  description : Option String := none
deriving DecidableEq, Repr

/-- A relation descriptor: `relation_details.get("many", False)`. -/
structure RelSpec where
  many : Bool := false
deriving DecidableEq, Repr

/-- A mirror-property descriptor: `mirror_details.get("path", "")`. -/
structure MirrorSpec where
  path : Option String := none
deriving DecidableEq, Repr

/-- A Port blueprint document, with the five sub-maps that
`_create_schema_from_blueprint` reads (each defaulting to empty). -/
structure Blueprint where
  properties : List (String × PropSpec) := []
  required : List String := []
  relations : List (String × RelSpec) := []
  calculationProperties : List (String × PropSpec) := []
  aggregationProperties : List (String × PropSpec) := []
  mirrorProperties : List (String × MirrorSpec) := []
deriving DecidableEq, Repr

/-- ASCII lowercase of one character, as Python's `str.lower` acts on the
ASCII type and format names the mapper compares against. -/
def lowerChar (c : Char) : Char :=
  if 'A' ≤ c ∧ c ≤ 'Z' then Char.ofNat (c.toNat + 32) else c

/-- ASCII lowercase of a string (`.lower()` on the mapper's inputs). -/
def pyLower (s : String) : String :=
  String.mk (s.data.map lowerChar)

/-- Python truthiness of an optional string (`if ... and format:`):
`None` and the empty string are falsy. -/
def optStrTruthy : Option String → Bool
  | none => false
  | some s => s ≠ ""

/-- `_map_port_type_to_bigquery`: map a Port type (plus optional format)
to a BigQuery field type. -/
def map_port_type_to_bigquery (port_type : String) (format : Option String) : String :=
  if pyLower port_type = "string" ∧ optStrTruthy format then
    let f := pyLower (format.getD "")
    if f = "url" ∨ f = "email" ∨ f = "markdown" ∨ f = "user" then "STRING"
    else if f = "date-time" then "TIMESTAMP"
    else "STRING"
  else
    let t := pyLower port_type
    if t = "string" then "STRING"
    else if t = "number" then "FLOAT64"
    else if t = "boolean" then "BOOL"
    else if t = "array" then "STRING"
    else if t = "object" then "STRING"
    else if t = "datetime" then "TIMESTAMP"
    else "STRING"

/-- `_create_property_fields` (the required-properties argument is ignored
by the source, as its docstring says). -/
def create_property_fields (properties : List (String × PropSpec))
    (required_properties : List String) : List SchemaField :=
  let _ := required_properties
  properties.map (fun p =>
    { name := p.1
      fieldType := map_port_type_to_bigquery (p.2.type.getD "string") p.2.format
      mode := "NULLABLE" })

/-- `_create_relation_fields`: every relation maps to a nullable STRING;
a "many" relation additionally carries a JSON-array description. -/
def create_relation_fields (relations : List (String × RelSpec)) : List SchemaField :=
  relations.map (fun r =>
    if r.2.many then
      { name := r.1, fieldType := "STRING", mode := "NULLABLE",
        description := some ("JSON array of " ++ r.1 ++ " identifiers") }
    else
      { name := r.1, fieldType := "STRING", mode := "NULLABLE" })

/-- `_create_calculation_fields`. -/
def create_calculation_fields (calculation_properties : List (String × PropSpec)) :
    List SchemaField :=
  calculation_properties.map (fun p =>
    { name := p.1
      fieldType := map_port_type_to_bigquery (p.2.type.getD "string") p.2.format
      mode := "NULLABLE"
      description := some ("Calculated property: " ++ p.2.description.getD "") })

/-- `_create_aggregation_fields`. -/
def create_aggregation_fields (aggregation_properties : List (String × PropSpec)) :
    List SchemaField :=
  aggregation_properties.map (fun p =>
    { name := p.1
      fieldType := map_port_type_to_bigquery (p.2.type.getD "string") p.2.format
      mode := "NULLABLE"
      description := some ("Aggregation property: " ++ p.2.description.getD "") })

/-- `_create_mirror_fields`. -/
def create_mirror_fields (mirror_properties : List (String × MirrorSpec)) :
    List SchemaField :=
  mirror_properties.map (fun p =>
    { name := p.1, fieldType := "STRING", mode := "NULLABLE",
      description := some ("Mirror property from path: " ++ p.2.path.getD "") })

/-- `_create_schema_from_blueprint`: the four fixed base columns followed by
property, relation, calculation, aggregation and mirror fields, in order. -/
def create_schema_from_blueprint (blueprint : Blueprint) : Schema :=
  [{ name := "identifier", fieldType := "STRING", mode := "REQUIRED" },
   { name := "title", fieldType := "STRING", mode := "NULLABLE" },
   { name := "created_at", fieldType := "TIMESTAMP", mode := "NULLABLE" },
   { name := "updated_at", fieldType := "TIMESTAMP", mode := "NULLABLE" }]
  ++ create_property_fields blueprint.properties blueprint.required
  ++ create_relation_fields blueprint.relations
  ++ create_calculation_fields blueprint.calculationProperties
  ++ create_aggregation_fields blueprint.aggregationProperties
  ++ create_mirror_fields blueprint.mirrorProperties

/-! ## Entity model and row shaping (`_prepare_entity_row`) -/

/-- A Port entity as consumed by `_prepare_entity_row`: the required
`identifier` and `title` keys, the optional timestamps, and the five
sub-maps (each defaulting to empty, matching `entity.get(..., {})`). -/
structure Entity where
  identifier : String
  title : JValue := .null
  createdAt : Option JValue := none
  updatedAt : Option JValue := none
  properties : PyDict := []
  relations : PyDict := []
  calculationProperties : PyDict := []
  aggregationProperties : PyDict := []
  mirrorProperties : PyDict := []

/-- Whether the relations loop of `_prepare_entity_row` writes a value of
this shape at all: only Python `str` and `list` values are written. -/
def relWrites : JValue → Bool
  | .str _ => true
  | .arr _ => true
  | _ => false

/-- The step of the relations loop in `_prepare_entity_row`: a string value
passes through, a list value is JSON-encoded, any other value is skipped. -/
def relationStep (schema_fields : Finset String) (r : PyDict) (p : String × JValue) : PyDict :=
  if p.1 ∈ schema_fields then
    match p.2 with
    | .str s => dictSet r p.1 (.str s)
    | .arr xs => dictSet r p.1 (.str (jsonDumps (.arr xs)))
    | _ => r
  else r

/-- The step of the property-class loops in `_prepare_entity_row`
(properties / calculation / aggregation / mirror): the value passes through
whenever the key is a known column. -/
def propStep (schema_fields : Finset String) (r : PyDict) (p : String × JValue) : PyDict :=
  if p.1 ∈ schema_fields then dictSet r p.1 p.2 else r

/-- `_prepare_entity_row`: base columns first, then properties, relations,
calculation, aggregation and mirror properties, each filtered to the known
column names. -/
def prepare_entity_row (entity : Entity) (schema_fields : Finset String) : PyDict :=
  let row : PyDict :=
    [("identifier", .str entity.identifier),
     ("title", entity.title),
     ("created_at", entity.createdAt.getD .null),
     ("updated_at", entity.updatedAt.getD .null)]
  let row := entity.properties.foldl (propStep schema_fields) row
  let row := entity.relations.foldl (relationStep schema_fields) row
  let row := entity.calculationProperties.foldl (propStep schema_fields) row
  let row := entity.aggregationProperties.foldl (propStep schema_fields) row
  let row := entity.mirrorProperties.foldl (propStep schema_fields) row
  row

/-! ## Migration engine (`create_or_update_table`) -/

/-- The schema-migration policy (`auto_migrate`). -/
inductive Policy where
  | weak : Policy
  | balanced : Policy
  | hard : Policy
deriving DecidableEq, Repr

/-- Exception sites of one `create_or_update_table` run, made explicit:
whether the initial `get_table` raises despite the table existing, whether
the `get_table` inside `_get_existing_schema_fields` raises, whether each of
the two `update_table` calls raises, and whether `create_table` raises. -/
structure Faults where
  getTableFails : Bool := false
  innerFetchFails : Bool := false
  addUpdateFails : Bool := false
  removeUpdateFails : Bool := false
  createFails : Bool := false
deriving DecidableEq, Repr

/-- A fault-free run. -/
def Faults.nofault : Faults := {}

/-- The warehouse calls a `create_or_update_table` run issues, in order. -/
inductive Action where
  | getTable : Action
  | fetchSchemaFields : Action
  | alterAdd (names : Finset String) : Action
  | alterRemove (names : Finset String) : Action
  | createTable (schema : Schema) : Action
  | logWouldRemove (names : Finset String) : Action
deriving DecidableEq

/-- How a `create_or_update_table` run terminates: table created, schema
reported up to date, schema altered, or an uncaught exception propagated. -/
inductive Outcome where
  | created : Outcome
  | unchanged : Outcome
  | altered : Outcome
  | raised : Outcome
deriving DecidableEq, Repr

/-- Result of one `create_or_update_table` run: the live table afterwards
(`none` when absent), the warehouse calls issued, and the terminal outcome. -/
structure RunResult where
  state : Option Schema
  trace : List Action
  outcome : Outcome

/-- Result of `_compare_schemas`. -/
structure SchemaChanges where
  added : Finset String
  removed : Finset String
  unchanged : Finset String
deriving DecidableEq

/-- `_compare_schemas`: added = new − existing; removed = existing − new
only under the `hard` policy, else empty; unchanged = the intersection. -/
def compare_schemas (policy : Policy) (existing_fields new_fields : Finset String) :
    SchemaChanges :=
  { added := new_fields \ existing_fields
    removed := if policy = .hard then existing_fields \ new_fields else ∅
    unchanged := existing_fields ∩ new_fields }

/-- `_get_existing_schema_fields`: the field-name set of the live table;
an exception during the fetch is caught inside the helper and answered
with the empty set. -/
def get_existing_schema_fields (f : Faults) (t : Schema) : Finset String :=
  if f.innerFetchFails then ∅ else fieldNames t

/-- The `except` branch of `create_or_update_table` (and the table-absent
branch of weak mode): create the table from the derived schema; a failure
of `create_table` itself propagates. -/
def fallback_create (f : Faults) (st : Option Schema) (schema : Schema)
    (tr : List Action) : RunResult :=
  if f.createFails then
    { state := st, trace := tr ++ [.createTable schema], outcome := .raised }
  else
    { state := some schema, trace := tr ++ [.createTable schema], outcome := .created }

/-- `_add_fields_to_table`: append to the live schema every derived field
whose name is in the added set, then issue one `update_table` call. -/
def add_fields_to_table (t : Schema) (schema : Schema) (fields_to_add : Finset String) :
    Schema :=
  t ++ schema.filter (fun fld => fld.name ∈ fields_to_add)

/-- `_remove_fields_from_table`: drop from the live schema every field whose
name is in the removed set, then issue one `update_table` call. -/
def remove_fields_from_table (t : Schema) (fields_to_remove : Finset String) : Schema :=
  t.filter (fun fld => fld.name ∉ fields_to_remove)

/-- The removal step of `create_or_update_table` (lines 324–327): remove
under `hard`; otherwise, a non-empty removed set would only be logged. -/
def remove_phase (policy : Policy) (f : Faults) (cur : Schema) (schema : Schema)
    (changes : SchemaChanges) (tr : List Action) : RunResult :=
  if policy = .hard ∧ changes.removed ≠ ∅ then
    let pruned := remove_fields_from_table cur changes.removed
    if f.removeUpdateFails then
      fallback_create f (some cur) schema (tr ++ [.alterRemove changes.removed])
    else
      { state := some pruned, trace := tr ++ [.alterRemove changes.removed],
        outcome := .altered }
  else if changes.removed ≠ ∅ then
    { state := some cur, trace := tr ++ [.logWouldRemove changes.removed],
      outcome := .altered }
  else
    { state := some cur, trace := tr, outcome := .altered }

/-- The body of the `try` block of `create_or_update_table` for an existing
table under `balanced` or `hard` (lines 309–327), with the surrounding
`except` applied to alteration failures. -/
def reconcile_existing (policy : Policy) (f : Faults) (t : Schema) (schema : Schema) :
    RunResult :=
  let existing_fields := get_existing_schema_fields f t
  let new_fields := fieldNames schema
  let changes := compare_schemas policy existing_fields new_fields
  let tr : List Action := [.getTable, .fetchSchemaFields]
  if changes.added = ∅ ∧ changes.removed = ∅ then
    { state := some t, trace := tr, outcome := .unchanged }
  else if changes.added ≠ ∅ then
    let altered := add_fields_to_table t schema changes.added
    if f.addUpdateFails then
      fallback_create f (some t) schema (tr ++ [.alterAdd changes.added])
    else
      remove_phase policy f altered schema changes (tr ++ [.alterAdd changes.added])
  else
    remove_phase policy f t schema changes tr

/-- `create_or_update_table`: weak mode creates the table only when absent
and otherwise leaves it untouched; `balanced`/`hard` diff the schemas and
alter, any exception in the `try` body being answered by `fallback_create`. -/
def create_or_update_table (policy : Policy) (f : Faults) (st : Option Schema)
    (schema : Schema) : RunResult :=
  if policy = .weak then
    match st, f.getTableFails with
    | some t, false => { state := some t, trace := [.getTable], outcome := .unchanged }
    | _, _ => fallback_create f st schema [.getTable]
  else
    match st, f.getTableFails with
    | some t, false => reconcile_existing policy f t schema
    | _, _ => fallback_create f st schema [.getTable]

/-! ## Row reconciler (`insert_entities`, `_execute_bulk_update`) -/

/-- The row partition of `insert_entities`: each entity is shaped into a row
and routed to the update list when its identifier already exists, else to
the insert list, preserving batch order. -/
def partition_rows (schema_fields : Finset String) (existing_identifiers : Finset String) :
    List Entity → List PyDict × List PyDict
  | [] => ([], [])
  | e :: rest =>
    let row := prepare_entity_row e schema_fields
    let (ins, upd) := partition_rows schema_fields existing_identifiers rest
    if e.identifier ∈ existing_identifiers then (ins, row :: upd) else (row :: ins, upd)

/-- The groups `_execute_bulk_update` builds: a Python dict from frozen
field-name sets to the rows sharing that field set, in insertion order. -/
abbrev UpdateGroups := List (Finset String × List (Option JValue × PyDict))

/-- Appending one entry to its field-set bucket, creating the bucket at the
end when the field set is new (Python dict insertion semantics). -/
def add_to_group (gs : UpdateGroups) (fs : Finset String) (e : Option JValue × PyDict) :
    UpdateGroups :=
  if fs ∈ gs.map Prod.fst then
    gs.map (fun g => if g.1 = fs then (g.1, g.2 ++ [e]) else g)
  else gs ++ [(fs, [e])]

/-- `row.pop("identifier")` followed by keeping the rest of the row: the
identifier value and the remaining field bindings. -/
def entryOf (row : PyDict) : Option JValue × PyDict :=
  (dictGet row "identifier", row.filter (fun p => p.1 ≠ "identifier"))

/-- The frozen field-name set of a popped row (`frozenset(row.keys())`). -/
def fieldSetOf (row : PyDict) : Finset String :=
  ((entryOf row).2.map Prod.fst).toFinset

/-- The grouping pass of `_execute_bulk_update`: pop the identifier out of
each row and bucket the remainder by its exact set of field names. -/
def group_update_rows (rows : List PyDict) : UpdateGroups :=
  rows.foldl (fun gs row => add_to_group gs (fieldSetOf row) (entryOf row)) []

/-- `_execute_bulk_update`: one parameterized UPDATE per grouped row, the
groups in insertion order; the failure oracle says which row's statement
raises, and a raising statement is caught and logged inside
`_execute_single_update`, so every row still yields an outcome. -/
def execute_bulk_update (rows : List PyDict) (fails : Option JValue → Bool) :
    List (Option JValue × Bool) :=
  (group_update_rows rows).foldl (fun results g =>
    results ++ g.2.map (fun e => (e.1, !fails e.1))) []

/-- What one `insert_entities` run produces: the partition, the per-row
update outcomes, and the two counts its log lines report. -/
structure InsertResult where
  rows_to_insert : List PyDict
  rows_to_update : List PyDict
  update_results : List (Option JValue × Bool)
  reported_insert_count : Nat
  reported_update_count : Nat

/-- `insert_entities`: shape and partition the batch against the table
columns and the existing identifiers, submit the insert half as one bulk
append, and fan out the update half; both halves are attempted. -/
def insert_entities (table_schema : Schema) (existing_identifiers : Finset String)
    (entities : List Entity) (fails : Option JValue → Bool) : InsertResult :=
  let schema_fields := fieldNames table_schema
  let pr := partition_rows schema_fields existing_identifiers entities
  { rows_to_insert := pr.1
    rows_to_update := pr.2
    update_results := execute_bulk_update pr.2 fails
    reported_insert_count := pr.1.length
    reported_update_count := pr.2.length }

def bp8 : Blueprint :=
  { properties := [("url", { type := some "string", format := some "url" })]
    relations := [("services", { many := true })] }

def schema8 : Schema :=
  [{ name := "identifier", fieldType := "STRING", mode := "REQUIRED" },
   { name := "title", fieldType := "STRING", mode := "NULLABLE" },
   { name := "created_at", fieldType := "TIMESTAMP", mode := "NULLABLE" },
   { name := "updated_at", fieldType := "TIMESTAMP", mode := "NULLABLE" },
   { name := "url", fieldType := "STRING", mode := "NULLABLE" },
   { name := "services", fieldType := "STRING", mode := "NULLABLE",
     description := some "JSON array of services identifiers" }]

def entity8 : Entity :=
  { identifier := "e1", title := .str "E1",
    properties := [("url", .str "http://x")],
    relations := [("services", .arr [.str "s1", .str "s2"])] }

def tABC : Schema :=
  [{ name := "a", fieldType := "STRING", mode := "NULLABLE" },
   { name := "b", fieldType := "STRING", mode := "NULLABLE" },
   { name := "c", fieldType := "STRING", mode := "NULLABLE" }]

def sBCD : Schema :=
  [{ name := "b", fieldType := "STRING", mode := "NULLABLE" },
   { name := "c", fieldType := "STRING", mode := "NULLABLE" },
   { name := "d", fieldType := "STRING", mode := "NULLABLE" }]

def base_table : Schema :=
  [{ name := "identifier", fieldType := "STRING", mode := "REQUIRED" },
   { name := "title", fieldType := "STRING", mode := "NULLABLE" },
   { name := "created_at", fieldType := "TIMESTAMP", mode := "NULLABLE" },
   { name := "updated_at", fieldType := "TIMESTAMP", mode := "NULLABLE" }]

def ex1 : Entity := { identifier := "x1", title := .str "X1" }
def ex2 : Entity := { identifier := "x2", title := .str "X2" }
def ex3 : Entity := { identifier := "x3", title := .str "X3" }

def failX1 : Option JValue → Bool
  | some (.str s) => s = "x1"
  | _ => false

/-- Entity whose sub-maps collide with base column names: a property named
`title`, a single relation named `created_at`, a mirror property named
`updated_at` (witness data for row-shaping overwrite behaviour). -/
def entity9w : Entity :=
  { identifier := "e1", title := .str "Base",
    properties := [("title", .str "P")],
    relations := [("created_at", .str "R")],
    mirrorProperties := [("updated_at", .str "M")] }

/-- Entity with a null-valued relation named `title` (counterexample data:
the relations loop writes nothing for a non-string, non-list value). -/
def entity9c : Entity :=
  { identifier := "e1", title := .str "T",
    relations := [("title", .null)] }

/-! ## Field-name set lemmas -/

theorem fieldNames_append (s t : Schema) :
    fieldNames (s ++ t) = fieldNames s ∪ fieldNames t := by
  simp [fieldNames]

theorem fieldNames_filter_mem (s : Schema) (A : Finset String) :
    fieldNames (s.filter (fun fld => fld.name ∈ A)) = fieldNames s ∩ A := by
  ext x
  simp only [fieldNames, List.mem_toFinset, List.mem_map, List.mem_filter,
    Finset.mem_inter, decide_eq_true_eq]
  constructor
  · rintro ⟨f, ⟨hf, hA⟩, rfl⟩
    exact ⟨⟨f, hf, rfl⟩, hA⟩
  · rintro ⟨⟨f, hf, rfl⟩, hA⟩
    exact ⟨f, ⟨hf, hA⟩, rfl⟩

theorem fieldNames_filter_not_mem (s : Schema) (R : Finset String) :
    fieldNames (s.filter (fun fld => fld.name ∉ R)) = fieldNames s \ R := by
  ext x
  simp only [fieldNames, List.mem_toFinset, List.mem_map, List.mem_filter,
    Finset.mem_sdiff, decide_eq_true_eq]
  constructor
  · rintro ⟨f, ⟨hf, hR⟩, rfl⟩
    exact ⟨⟨f, hf, rfl⟩, hR⟩
  · rintro ⟨⟨f, hf, rfl⟩, hR⟩
    exact ⟨f, ⟨hf, hR⟩, rfl⟩

theorem fieldNames_add_fields (t schema : Schema) (A : Finset String) :
    fieldNames (add_fields_to_table t schema A) = fieldNames t ∪ (fieldNames schema ∩ A) := by
  rw [add_fields_to_table, fieldNames_append, fieldNames_filter_mem]

theorem fieldNames_remove_fields (t : Schema) (R : Finset String) :
    fieldNames (remove_fields_from_table t R) = fieldNames t \ R := by
  rw [remove_fields_from_table, fieldNames_filter_not_mem]

/-! ## Unfolding lemmas for `create_or_update_table` -/

theorem run_weak_existing (f : Faults) (t schema : Schema) (h : f.getTableFails = false) :
    create_or_update_table .weak f (some t) schema =
      { state := some t, trace := [.getTable], outcome := .unchanged } := by
  simp [create_or_update_table, h]

theorem run_existing_eq (policy : Policy) (hp : policy ≠ .weak) (f : Faults)
    (t schema : Schema) (h : f.getTableFails = false) :
    create_or_update_table policy f (some t) schema = reconcile_existing policy f t schema := by
  simp [create_or_update_table, hp, h]

theorem run_getTableFails_eq (policy : Policy) (hp : policy ≠ .weak) (f : Faults)
    (st : Option Schema) (schema : Schema) (h : f.getTableFails = true) :
    create_or_update_table policy f st schema = fallback_create f st schema [.getTable] := by
  cases st <;> simp [create_or_update_table, hp, h]

theorem run_absent_eq (policy : Policy) (hp : policy ≠ .weak) (f : Faults) (schema : Schema) :
    create_or_update_table policy f none schema = fallback_create f none schema [.getTable] := by
  cases hb : f.getTableFails <;> simp [create_or_update_table, hp, hb]

/-! ## Fault-free run lemmas -/

theorem nofault_getTableFails : Faults.nofault.getTableFails = false := rfl

theorem nofault_innerFetchFails : Faults.nofault.innerFetchFails = false := rfl

theorem nofault_addUpdateFails : Faults.nofault.addUpdateFails = false := rfl

theorem nofault_removeUpdateFails : Faults.nofault.removeUpdateFails = false := rfl

theorem nofault_createFails : Faults.nofault.createFails = false := rfl

theorem union_inter_sdiff_eq (E N : Finset String) : E ∪ (N ∩ (N \ E)) = E ∪ N := by
  ext x
  simp only [Finset.mem_union, Finset.mem_inter, Finset.mem_sdiff]
  tauto

theorem union_sdiff_eq (E N : Finset String) : (E ∪ N) \ (E \ N) = N := by
  ext x
  simp only [Finset.mem_union, Finset.mem_sdiff]
  tauto

theorem remove_phase_nofault_state (policy : Policy) (cur schema : Schema)
    (changes : SchemaChanges) (tr : List Action) :
    (remove_phase policy Faults.nofault cur schema changes tr).state =
      some (if policy = .hard ∧ changes.removed ≠ ∅
            then remove_fields_from_table cur changes.removed else cur) := by
  unfold remove_phase
  split_ifs with h h2 <;> simp_all [Faults.nofault]

/-- After one fault-free `create_or_update_table` run under a non-weak
policy, the table exists, its columns cover every derived column, and under
`hard` they are exactly the derived columns. -/
theorem reconcile_state_nofault (policy : Policy) (hp : policy ≠ .weak)
    (st : Option Schema) (schema : Schema) :
    ∃ t', (create_or_update_table policy Faults.nofault st schema).state = some t' ∧
      fieldNames schema ⊆ fieldNames t' ∧
      (policy = .hard → fieldNames t' = fieldNames schema) := by
  cases st with
  | none =>
    rw [run_absent_eq policy hp]
    exact ⟨schema, by simp [fallback_create, Faults.nofault], Finset.Subset.refl _, fun _ => rfl⟩
  | some t =>
    rw [run_existing_eq policy hp _ t schema rfl]
    unfold reconcile_existing
    simp only [get_existing_schema_fields, nofault_innerFetchFails, Bool.false_eq_true,
      if_false, compare_schemas, nofault_addUpdateFails]
    set E := fieldNames t with hE
    set N := fieldNames schema with hN
    by_cases h1 : N \ E = ∅ ∧ (if policy = .hard then E \ N else ∅) = ∅
    · rw [if_pos h1]
      refine ⟨t, rfl, Finset.sdiff_eq_empty_iff_subset.mp h1.1, fun hh => ?_⟩
      refine Finset.Subset.antisymm ?_ (Finset.sdiff_eq_empty_iff_subset.mp h1.1)
      have := h1.2
      rw [if_pos hh] at this
      exact Finset.sdiff_eq_empty_iff_subset.mp this
    · rw [if_neg h1]
      by_cases h2 : N \ E ≠ ∅
      · rw [if_pos h2]
        rw [remove_phase_nofault_state]
        by_cases h3 : policy = .hard ∧ (if policy = .hard then E \ N else ∅) ≠ ∅
        · rw [if_pos h3]
          refine ⟨_, rfl, ?_, fun _ => ?_⟩
          · rw [fieldNames_remove_fields, fieldNames_add_fields, ← hE, ← hN,
              union_inter_sdiff_eq, if_pos h3.1, union_sdiff_eq]
          · rw [fieldNames_remove_fields, fieldNames_add_fields, ← hE, ← hN,
              union_inter_sdiff_eq, if_pos h3.1, union_sdiff_eq]
        · rw [if_neg h3]
          refine ⟨_, rfl, ?_, fun hh => ?_⟩
          · rw [fieldNames_add_fields, ← hE, ← hN, union_inter_sdiff_eq]
            exact Finset.subset_union_right
          · rw [fieldNames_add_fields, ← hE, ← hN, union_inter_sdiff_eq]
            have hrem : (if policy = .hard then E \ N else ∅) = ∅ := by
              by_contra hne
              exact h3 ⟨hh, hne⟩
            rw [if_pos hh] at hrem
            have hEN : E ⊆ N := Finset.sdiff_eq_empty_iff_subset.mp hrem
            exact Finset.union_eq_right.mpr hEN
      · rw [if_neg h2]
        push_neg at h2
        have hrem_ne : (if policy = .hard then E \ N else ∅) ≠ ∅ := by
          intro hc
          exact h1 ⟨h2, hc⟩
        have hhard : policy = .hard := by
          by_contra hc
          rw [if_neg hc] at hrem_ne
          exact hrem_ne rfl
        rw [remove_phase_nofault_state]
        rw [if_pos ⟨hhard, hrem_ne⟩]
        have hNE : N ⊆ E := Finset.sdiff_eq_empty_iff_subset.mp h2
        refine ⟨_, rfl, ?_, fun _ => ?_⟩
        · rw [fieldNames_remove_fields, ← hE, if_pos hhard, Finset.sdiff_sdiff_self_left]
          exact Finset.subset_inter hNE (Finset.Subset.refl _)
        · rw [fieldNames_remove_fields, ← hE, if_pos hhard, Finset.sdiff_sdiff_self_left]
          exact Finset.inter_eq_right.mpr hNE

/-- A fault-free run against a table whose columns already cover the derived
columns (exactly, under `hard`) reports the schema up to date and issues no
creation or alteration call. -/
theorem run_unchanged_of_subset (policy : Policy) (hp : policy ≠ .weak)
    (t schema : Schema) (hsub : fieldNames schema ⊆ fieldNames t)
    (hhard : policy = .hard → fieldNames t = fieldNames schema) :
    create_or_update_table policy Faults.nofault (some t) schema =
      { state := some t, trace := [.getTable, .fetchSchemaFields], outcome := .unchanged } := by
  rw [run_existing_eq policy hp _ t schema rfl]
  unfold reconcile_existing
  simp only [get_existing_schema_fields, nofault_innerFetchFails, Bool.false_eq_true,
    if_false, compare_schemas]
  have hadd : fieldNames schema \ fieldNames t = ∅ :=
    Finset.sdiff_eq_empty_iff_subset.mpr hsub
  have hrem : (if policy = .hard then fieldNames t \ fieldNames schema else ∅) = ∅ := by
    split_ifs with h
    · rw [hhard h]
      exact Finset.sdiff_self _
    · rfl
  rw [if_pos ⟨hadd, hrem⟩]

/-! ## Claim theorems -/

/-- C1 (amended): on existing columns a,b,c and derived columns b,c,d, the
`hard` policy yields added = d and removed = a, applies both an addition and
a removal alteration, and leaves exactly columns b,c,d; the `balanced`
policy yields added = d and applies only the addition, but its removed set
is computed as the empty set — the existing−new subtraction is performed
only under `hard` — so nothing is reported or applied for removals. -/
theorem c1_schema_diff_hard_balanced :
    compare_schemas .hard (fieldNames tABC) (fieldNames sBCD) =
      { added := {"d"}, removed := {"a"}, unchanged := {"b", "c"} } ∧
    (create_or_update_table .hard Faults.nofault (some tABC) sBCD).trace =
      [.getTable, .fetchSchemaFields, .alterAdd {"d"}, .alterRemove {"a"}] ∧
    fieldNames ((create_or_update_table .hard Faults.nofault (some tABC) sBCD).state.getD [])
      = {"b", "c", "d"} ∧
    compare_schemas .balanced (fieldNames tABC) (fieldNames sBCD) =
      { added := {"d"}, removed := ∅, unchanged := {"b", "c"} } ∧
    (create_or_update_table .balanced Faults.nofault (some tABC) sBCD).trace =
      [.getTable, .fetchSchemaFields, .alterAdd {"d"}] := by
  decide

/-- C1 counterexample: under `balanced` the removed set is computed as the
empty set, not as a, and the run reports nothing about removals — its trace
carries no `logWouldRemove` entry. -/
theorem c1_counterexample :
    (compare_schemas .balanced (fieldNames tABC) (fieldNames sBCD)).removed = ∅ ∧
    (compare_schemas .balanced (fieldNames tABC) (fieldNames sBCD)).removed ≠ {"a"} ∧
    Action.logWouldRemove {"a"} ∉
      (create_or_update_table .balanced Faults.nofault (some tABC) sBCD).trace := by
  decide

/-- C2: under the `weak` policy, a run against an existing table (one whose
existence check succeeds) issues only the existence check — no creation, no
alteration, no fetch of the table's columns — leaves the live schema
unchanged, and terminates reporting `unchanged`, whatever the derived
schema is. -/
theorem c2_weak_mode_untouched (t schema : Schema) (f : Faults)
    (h : f.getTableFails = false) :
    create_or_update_table .weak f (some t) schema =
      { state := some t, trace := [.getTable], outcome := .unchanged } ∧
    Action.createTable schema ∉ (create_or_update_table .weak f (some t) schema).trace ∧
    Action.fetchSchemaFields ∉ (create_or_update_table .weak f (some t) schema).trace := by
  have he := run_weak_existing f t schema h
  refine ⟨he, ?_, ?_⟩ <;> simp [he]

/-- Witness for C2: a concrete existing table and differing derived schema. -/
theorem c2_witness :
    create_or_update_table .weak Faults.nofault (some tABC) sBCD =
      { state := some tABC, trace := [.getTable], outcome := .unchanged } ∧
    Action.createTable sBCD ∉ (create_or_update_table .weak Faults.nofault (some tABC) sBCD).trace ∧
    Action.fetchSchemaFields ∉ (create_or_update_table .weak Faults.nofault (some tABC) sBCD).trace :=
  c2_weak_mode_untouched tABC sBCD Faults.nofault rfl

/-- C3: additive idempotence — after one fault-free reconcile under
`balanced` or `hard`, a second run with the same derived schema finds the
added and removed sets both empty, issues zero creation and zero alteration
calls (its trace is exactly the existence check followed by the
schema-fields fetch), and terminates reporting the schema up to date. -/
theorem c3_additive_idempotence (policy : Policy)
    (hp : policy = .balanced ∨ policy = .hard) (st : Option Schema) (schema : Schema) :
    let t' := (create_or_update_table policy Faults.nofault st schema).state.getD []
    (create_or_update_table policy Faults.nofault st schema).state = some t' ∧
    (compare_schemas policy (fieldNames t') (fieldNames schema)).added = ∅ ∧
    (compare_schemas policy (fieldNames t') (fieldNames schema)).removed = ∅ ∧
    create_or_update_table policy Faults.nofault (some t') schema =
      { state := some t', trace := [.getTable, .fetchSchemaFields],
        outcome := .unchanged } := by
  have hp' : policy ≠ .weak := by rcases hp with h | h <;> subst h <;> simp
  obtain ⟨t', hstate, hsub, hhard⟩ := reconcile_state_nofault policy hp' st schema
  simp only [hstate, Option.getD_some]
  refine ⟨trivial, ?_, ?_, run_unchanged_of_subset policy hp' t' schema hsub hhard⟩
  · show fieldNames schema \ fieldNames t' = ∅
    exact Finset.sdiff_eq_empty_iff_subset.mpr hsub
  · show (if policy = .hard then fieldNames t' \ fieldNames schema else ∅) = ∅
    split_ifs with h
    · rw [hhard h]
      exact Finset.sdiff_self _
    · rfl

/-- Witness for C3: policy `balanced`, table initially absent, the base
schema as the derived schema. -/
theorem c3_witness :
    let t' := (create_or_update_table .balanced Faults.nofault none base_table).state.getD []
    (create_or_update_table .balanced Faults.nofault none base_table).state = some t' ∧
    (compare_schemas .balanced (fieldNames t') (fieldNames base_table)).added = ∅ ∧
    (compare_schemas .balanced (fieldNames t') (fieldNames base_table)).removed = ∅ ∧
    create_or_update_table .balanced Faults.nofault (some t') base_table =
      { state := some t', trace := [.getTable, .fetchSchemaFields],
        outcome := .unchanged } :=
  c3_additive_idempotence .balanced (Or.inl rfl) none base_table

/-! ## Failure-path lemmas -/

theorem fallback_create_trace (f : Faults) (st : Option Schema) (schema : Schema)
    (tr : List Action) :
    (fallback_create f st schema tr).trace = tr ++ [.createTable schema] ∧
    (fallback_create f st schema tr).outcome =
      (if f.createFails = true then .raised else .created) := by
  unfold fallback_create
  split_ifs with h <;> simp_all

theorem reconcile_existing_addfail (policy : Policy) (f : Faults) (t schema : Schema)
    (hfail : f.addUpdateFails = true)
    (hadded : (compare_schemas policy (get_existing_schema_fields f t)
      (fieldNames schema)).added ≠ ∅) :
    reconcile_existing policy f t schema =
      fallback_create f (some t) schema
        [.getTable, .fetchSchemaFields,
         .alterAdd (compare_schemas policy (get_existing_schema_fields f t)
           (fieldNames schema)).added] := by
  simp only [reconcile_existing]
  rw [if_neg (fun hc => hadded hc.1), if_pos hadded, hfail]
  simp

theorem reconcile_existing_removefail (f : Faults) (t schema : Schema)
    (haddok : f.addUpdateFails = false) (hfail : f.removeUpdateFails = true)
    (hrem : (compare_schemas .hard (get_existing_schema_fields f t)
      (fieldNames schema)).removed ≠ ∅) :
    (reconcile_existing .hard f t schema).trace.getLast? = some (.createTable schema) ∧
    (reconcile_existing .hard f t schema).outcome =
      (if f.createFails = true then .raised else .created) := by
  simp only [reconcile_existing]
  rw [if_neg (fun hc => hrem hc.2)]
  by_cases hadd : (compare_schemas .hard (get_existing_schema_fields f t)
      (fieldNames schema)).added ≠ ∅
  · rw [if_pos hadd, haddok]
    simp only [Bool.false_eq_true, if_false, remove_phase]
    rw [if_pos ⟨by simp, hrem⟩, hfail]
    simp only [if_true]
    obtain ⟨h1, h2⟩ := fallback_create_trace f _ schema _
    rw [h1, h2, List.getLast?_concat]
    exact ⟨rfl, rfl⟩
  · rw [if_neg hadd]
    simp only [remove_phase]
    rw [if_pos ⟨by simp, hrem⟩, hfail]
    simp only [if_true]
    obtain ⟨h1, h2⟩ := fallback_create_trace f _ schema _
    rw [h1, h2, List.getLast?_concat]
    exact ⟨rfl, rfl⟩

theorem reconcile_existing_innerfail (policy : Policy) (f : Faults) (t schema : Schema)
    (hinner : f.innerFetchFails = true) (haddok : f.addUpdateFails = false)
    (hN : fieldNames schema ≠ ∅) :
    reconcile_existing policy f t schema =
      { state := some (add_fields_to_table t schema (fieldNames schema)),
        trace := [.getTable, .fetchSchemaFields, .alterAdd (fieldNames schema)],
        outcome := .altered } := by
  simp only [reconcile_existing, get_existing_schema_fields, hinner, if_true,
    compare_schemas, Finset.sdiff_empty, Finset.empty_sdiff, ite_self]
  rw [if_neg (fun hc => hN hc.1), if_pos hN, haddok]
  simp only [Bool.false_eq_true, if_false, remove_phase]
  simp

/-- C4 (amended): under `balanced` or `hard` against an existing table, an
exception of the initial table fetch is caught and answered by a fallback
full table creation from the derived schema, and so is an exception of
either schema-alteration call; an exception inside the schema-fields fetch
helper, however, is caught within the helper and treated as an empty
existing-field set — the run then applies an add-all alteration instead of
creating the table. -/
theorem c4_fetch_alter_fallback (policy : Policy)
    (hp : policy = .balanced ∨ policy = .hard) :
    (∀ (t schema : Schema) (f : Faults), f.getTableFails = true →
      create_or_update_table policy f (some t) schema =
        fallback_create f (some t) schema [.getTable]) ∧
    (∀ (t schema : Schema) (f : Faults), f.getTableFails = false →
      f.addUpdateFails = true →
      (compare_schemas policy (get_existing_schema_fields f t)
        (fieldNames schema)).added ≠ ∅ →
      create_or_update_table policy f (some t) schema =
        fallback_create f (some t) schema
          [.getTable, .fetchSchemaFields,
           .alterAdd (compare_schemas policy (get_existing_schema_fields f t)
             (fieldNames schema)).added]) ∧
    (∀ (t schema : Schema) (f : Faults), policy = .hard → f.getTableFails = false →
      f.addUpdateFails = false → f.removeUpdateFails = true →
      (compare_schemas .hard (get_existing_schema_fields f t)
        (fieldNames schema)).removed ≠ ∅ →
      (create_or_update_table policy f (some t) schema).trace.getLast? =
          some (.createTable schema) ∧
        (create_or_update_table policy f (some t) schema).outcome =
          (if f.createFails = true then .raised else .created)) ∧
    (∀ (t schema : Schema) (f : Faults), f.getTableFails = false →
      f.innerFetchFails = true → f.addUpdateFails = false → fieldNames schema ≠ ∅ →
      create_or_update_table policy f (some t) schema =
        { state := some (add_fields_to_table t schema (fieldNames schema)),
          trace := [.getTable, .fetchSchemaFields, .alterAdd (fieldNames schema)],
          outcome := .altered }) := by
  have hp' : policy ≠ .weak := by rcases hp with h | h <;> subst h <;> simp
  refine ⟨?_, ?_, ?_, ?_⟩
  · intro t schema f h
    exact run_getTableFails_eq policy hp' f (some t) schema h
  · intro t schema f h0 h1 h2
    rw [run_existing_eq policy hp' f t schema h0]
    exact reconcile_existing_addfail policy f t schema h1 h2
  · intro t schema f hh h0 h1 h2 h3
    subst hh
    rw [run_existing_eq .hard hp' f t schema h0]
    exact reconcile_existing_removefail f t schema h1 h2 h3
  · intro t schema f h0 hi ha hN
    rw [run_existing_eq policy hp' f t schema h0]
    exact reconcile_existing_innerfail policy f t schema hi ha hN

/-- C4 counterexample: with the table present and the schema-fields fetch
helper raising, the run does not fall back to table creation — the helper
swallows the exception, the existing-field set is taken to be empty, and an
add-all alteration is applied instead (outcome `altered`, no `createTable`
call in the trace). -/
theorem c4_counterexample :
    (create_or_update_table .balanced { innerFetchFails := true } (some tABC) tABC).trace =
      [.getTable, .fetchSchemaFields, .alterAdd {"a", "b", "c"}] ∧
    (create_or_update_table .balanced { innerFetchFails := true } (some tABC) tABC).outcome =
      .altered ∧
    (create_or_update_table .balanced { innerFetchFails := true } (some tABC) tABC).outcome ≠
      .created ∧
    Action.createTable tABC ∉
      (create_or_update_table .balanced { innerFetchFails := true } (some tABC) tABC).trace := by
  decide

/-- Witness for C4: each failure mode at a concrete table and schema. -/
theorem c4_witness :
    create_or_update_table .balanced ({ getTableFails := true } : Faults) (some tABC) sBCD =
      fallback_create ({ getTableFails := true } : Faults) (some tABC) sBCD [.getTable] ∧
    create_or_update_table .balanced ({ addUpdateFails := true } : Faults) (some tABC) sBCD =
      fallback_create ({ addUpdateFails := true } : Faults) (some tABC) sBCD
        [.getTable, .fetchSchemaFields,
         .alterAdd (compare_schemas .balanced
           (get_existing_schema_fields ({ addUpdateFails := true } : Faults) tABC)
           (fieldNames sBCD)).added] ∧
    ((create_or_update_table .hard ({ removeUpdateFails := true } : Faults)
        (some tABC) sBCD).trace.getLast? = some (.createTable sBCD) ∧
      (create_or_update_table .hard ({ removeUpdateFails := true } : Faults)
        (some tABC) sBCD).outcome =
        (if ({ removeUpdateFails := true } : Faults).createFails = true
         then .raised else .created)) ∧
    create_or_update_table .hard ({ innerFetchFails := true } : Faults) (some tABC) sBCD =
      { state := some (add_fields_to_table tABC sBCD (fieldNames sBCD)),
        trace := [.getTable, .fetchSchemaFields, .alterAdd (fieldNames sBCD)],
        outcome := .altered } :=
  ⟨(c4_fetch_alter_fallback .balanced (Or.inl rfl)).1 tABC sBCD _ rfl,
   (c4_fetch_alter_fallback .balanced (Or.inl rfl)).2.1 tABC sBCD _ rfl rfl (by decide),
   (c4_fetch_alter_fallback .hard (Or.inr rfl)).2.2.1 tABC sBCD _ rfl rfl rfl rfl (by decide),
   (c4_fetch_alter_fallback .hard (Or.inr rfl)).2.2.2 tABC sBCD _ rfl rfl rfl (by decide)⟩

/-- C5 (amended): a failing schema add or remove alteration does not
propagate out of `create_or_update_table`: the run catches it and falls
back to a full table creation, and an exception propagates out — aborting
that table's migration — exactly when the fallback creation itself fails. -/
theorem c5_alter_failure_contained (policy : Policy)
    (hp : policy = .balanced ∨ policy = .hard) :
    (∀ (t schema : Schema) (f : Faults), f.getTableFails = false →
      f.addUpdateFails = true →
      (compare_schemas policy (get_existing_schema_fields f t)
        (fieldNames schema)).added ≠ ∅ →
      ((create_or_update_table policy f (some t) schema).outcome = .raised ↔
        f.createFails = true)) ∧
    (∀ (t schema : Schema) (f : Faults), policy = .hard → f.getTableFails = false →
      f.addUpdateFails = false → f.removeUpdateFails = true →
      (compare_schemas .hard (get_existing_schema_fields f t)
        (fieldNames schema)).removed ≠ ∅ →
      ((create_or_update_table policy f (some t) schema).outcome = .raised ↔
        f.createFails = true)) := by
  have hp' : policy ≠ .weak := by rcases hp with h | h <;> subst h <;> simp
  constructor
  · intro t schema f h0 h1 h2
    rw [run_existing_eq policy hp' f t schema h0,
      reconcile_existing_addfail policy f t schema h1 h2]
    obtain ⟨-, h4⟩ := fallback_create_trace f (some t) schema
      [.getTable, .fetchSchemaFields,
       .alterAdd (compare_schemas policy (get_existing_schema_fields f t)
         (fieldNames schema)).added]
    rw [h4]
    cases hc : f.createFails <;> simp [hc]
  · intro t schema f hh h0 h1 h2 h3
    subst hh
    rw [run_existing_eq .hard hp' f t schema h0]
    obtain ⟨-, h4⟩ := reconcile_existing_removefail f t schema h1 h2 h3
    rw [h4]
    cases hc : f.createFails <;> simp [hc]

/-- C5 counterexample: a failing addition alteration (and a failing removal
alteration) is absorbed by the run — the outcome is `created` via the
fallback creation, and no exception propagates out. -/
theorem c5_counterexample :
    (create_or_update_table .balanced { addUpdateFails := true } (some tABC) sBCD).outcome =
      .created ∧
    (create_or_update_table .balanced { addUpdateFails := true } (some tABC) sBCD).outcome ≠
      .raised ∧
    (create_or_update_table .hard { removeUpdateFails := true } (some tABC) sBCD).outcome =
      .created ∧
    (create_or_update_table .hard { removeUpdateFails := true } (some tABC) sBCD).outcome ≠
      .raised := by
  decide

/-- Witness for C5: a failing addition alteration whose fallback creation
also fails (exception propagates) and a failing removal alteration whose
fallback creation succeeds (no exception). -/
theorem c5_witness :
    ((create_or_update_table .balanced
        ({ addUpdateFails := true, createFails := true } : Faults) (some tABC) sBCD).outcome =
        .raised ↔
      ({ addUpdateFails := true, createFails := true } : Faults).createFails = true) ∧
    ((create_or_update_table .hard ({ removeUpdateFails := true } : Faults)
        (some tABC) sBCD).outcome = .raised ↔
      ({ removeUpdateFails := true } : Faults).createFails = true) :=
  ⟨(c5_alter_failure_contained .balanced (Or.inl rfl)).1 tABC sBCD _ rfl rfl (by decide),
   (c5_alter_failure_contained .hard (Or.inr rfl)).2 tABC sBCD _ rfl rfl rfl rfl (by decide)⟩

/-! ## Dictionary lemmas -/

theorem dictGet_cons_pos (p : String × JValue) (d : PyDict) (k : String) (h : p.1 = k) :
    dictGet (p :: d) k = some p.2 := by
  simp [dictGet, List.find?_cons_of_pos, h]

theorem dictGet_cons_neg (p : String × JValue) (d : PyDict) (k : String) (h : p.1 ≠ k) :
    dictGet (p :: d) k = dictGet d k := by
  rw [dictGet, dictGet, List.find?_cons_of_neg]
  simpa using h

theorem dictGet_map_update_self (d : PyDict) (k : String) (v : JValue) :
    dictGet (d.map (fun p => if p.1 = k then (p.1, v) else p)) k =
      (dictGet d k).map (fun _ => v) := by
  induction d with
  | nil => simp [dictGet]
  | cons p d ih =>
    by_cases hp : p.1 = k
    · rw [List.map_cons, if_pos hp, dictGet_cons_pos p d k hp,
        dictGet_cons_pos (p.1, v) _ k hp]
      rfl
    · rw [List.map_cons, if_neg hp, dictGet_cons_neg p d k hp,
        dictGet_cons_neg p _ k hp, ih]

theorem dictGet_map_update_ne (d : PyDict) (k q : String) (v : JValue) (h : k ≠ q) :
    dictGet (d.map (fun p => if p.1 = q then (p.1, v) else p)) k = dictGet d k := by
  induction d with
  | nil => simp [dictGet]
  | cons p d ih =>
    by_cases hp : p.1 = q
    · have hk : p.1 ≠ k := fun hc => h (by rw [← hc, hp])
      rw [List.map_cons, if_pos hp, dictGet_cons_neg p d k hk,
        dictGet_cons_neg (p.1, v) _ k hk, ih]
    · by_cases hk : p.1 = k
      · rw [List.map_cons, if_neg hp, dictGet_cons_pos p d k hk,
        dictGet_cons_pos p _ k hk]
      · rw [List.map_cons, if_neg hp, dictGet_cons_neg p d k hk,
        dictGet_cons_neg p _ k hk, ih]

theorem dictGet_append_self (d : PyDict) (k : String) (v : JValue)
    (h : k ∉ d.map Prod.fst) :
    dictGet (d ++ [(k, v)]) k = some v := by
  induction d with
  | nil => simp [dictGet]
  | cons p d ih =>
    simp only [List.map_cons, List.mem_cons, not_or] at h
    rw [List.cons_append, dictGet_cons_neg _ _ _ (fun hc => h.1 hc.symm), ih h.2]

theorem dictGet_append_ne (d : PyDict) (k q : String) (v : JValue) (h : k ≠ q) :
    dictGet (d ++ [(q, v)]) k = dictGet d k := by
  induction d with
  | nil => simpa [dictGet] using fun hc => h hc.symm
  | cons p d ih =>
    by_cases hk : p.1 = k
    · rw [List.cons_append, dictGet_cons_pos _ _ _ hk, dictGet_cons_pos _ _ _ hk]
    · rw [List.cons_append, dictGet_cons_neg _ _ _ hk, dictGet_cons_neg _ _ _ hk, ih]

theorem dictGet_some_of_mem_keys (d : PyDict) (k : String) (h : k ∈ d.map Prod.fst) :
    ∃ w, dictGet d k = some w := by
  induction d with
  | nil => simp at h
  | cons p d ih =>
    by_cases hp : p.1 = k
    · exact ⟨p.2, dictGet_cons_pos _ _ _ hp⟩
    · rw [dictGet_cons_neg _ _ _ hp]
      simp only [List.map_cons, List.mem_cons] at h
      rcases h with hc | hc
      · exact absurd hc.symm hp
      · exact ih hc

theorem dictGet_dictSet_self (d : PyDict) (k : String) (v : JValue) :
    dictGet (dictSet d k v) k = some v := by
  rw [dictSet]
  split_ifs with h
  · obtain ⟨w, hw⟩ := dictGet_some_of_mem_keys d k h
    rw [dictGet_map_update_self, hw]
    rfl
  · exact dictGet_append_self d k v h

theorem dictGet_dictSet_ne (d : PyDict) (k q : String) (v : JValue) (h : k ≠ q) :
    dictGet (dictSet d q v) k = dictGet d k := by
  rw [dictSet]
  split_ifs with hq
  · exact dictGet_map_update_ne d k q v h
  · exact dictGet_append_ne d k q v h

/-! ## Grouped-update lemmas -/

theorem add_to_group_keys (gs : UpdateGroups) (fs : Finset String)
    (e : Option JValue × PyDict) :
    (add_to_group gs fs e).map Prod.fst =
      if fs ∈ gs.map Prod.fst then gs.map Prod.fst else gs.map Prod.fst ++ [fs] := by
  unfold add_to_group
  split_ifs with h
  · rw [List.map_map]
    refine List.map_congr_left ?_
    intro g hg
    by_cases hgf : g.1 = fs <;> simp [hgf]
  · simp

theorem add_to_group_keys_nodup (gs : UpdateGroups) (fs : Finset String)
    (e : Option JValue × PyDict) (h : (gs.map Prod.fst).Nodup) :
    ((add_to_group gs fs e).map Prod.fst).Nodup := by
  rw [add_to_group_keys]
  split_ifs with hp
  · exact h
  · rw [List.nodup_append]
    exact ⟨h, List.nodup_singleton fs, fun a ha hb => hp ((List.mem_singleton.mp hb) ▸ ha)⟩

theorem bind_update_perm (fs : Finset String) (e : Option JValue × PyDict) :
    ∀ (gs : UpdateGroups), (gs.map Prod.fst).Nodup → fs ∈ gs.map Prod.fst →
      List.Perm
        ((gs.map (fun g => if g.1 = fs then (g.1, g.2 ++ [e]) else g)).bind Prod.snd)
        (gs.bind Prod.snd ++ [e])
  | [], _, hmem => by simp at hmem
  | g :: gs, hnd, hmem => by
    by_cases hg : g.1 = fs
    · have hkey : g.1 ∉ gs.map Prod.fst := (List.nodup_cons.mp (by simpa using hnd)).1
      have hmap : gs.map (fun g' => if g'.1 = fs then (g'.1, g'.2 ++ [e]) else g') = gs := by
        refine List.map_congr_left ?_ |>.trans (List.map_id gs)
        intro g' hmem'
        have : g'.1 ≠ fs := fun hc => hkey (hg ▸ hc ▸ List.mem_map_of_mem Prod.fst hmem')
        simp [this]
      rw [List.map_cons, if_pos hg, hmap]
      simp only [List.cons_bind]
      rw [List.append_assoc, List.append_assoc]
      exact List.Perm.append_left g.2 List.perm_append_comm
    · have hmem' : fs ∈ gs.map Prod.fst := by
        rw [List.map_cons, List.mem_cons] at hmem
        rcases hmem with hc | hc
        · exact absurd hc.symm hg
        · exact hc
      have hnd' : (gs.map Prod.fst).Nodup := (List.nodup_cons.mp (by simpa using hnd)).2
      have ih := bind_update_perm fs e gs hnd' hmem'
      rw [List.map_cons, if_neg hg]
      simp only [List.cons_bind]
      rw [List.append_assoc]
      exact List.Perm.append_left g.2 ih

theorem add_to_group_bind_perm (gs : UpdateGroups) (fs : Finset String)
    (e : Option JValue × PyDict) (h : (gs.map Prod.fst).Nodup) :
    List.Perm ((add_to_group gs fs e).bind Prod.snd) (gs.bind Prod.snd ++ [e]) := by
  unfold add_to_group
  split_ifs with hp
  · exact bind_update_perm fs e gs h hp
  · simp

theorem group_fold_bind_perm (rows : List PyDict) :
    ∀ (gs : UpdateGroups), (gs.map Prod.fst).Nodup →
      List.Perm
        ((rows.foldl (fun gs row => add_to_group gs (fieldSetOf row) (entryOf row)) gs).bind
          Prod.snd)
        (gs.bind Prod.snd ++ rows.map entryOf) := by
  induction rows with
  | nil => intro gs _; simp
  | cons row rows ih =>
    intro gs hnd
    rw [List.foldl_cons]
    have h1 := ih (add_to_group gs (fieldSetOf row) (entryOf row))
      (add_to_group_keys_nodup gs _ _ hnd)
    have h2 := add_to_group_bind_perm gs (fieldSetOf row) (entryOf row) hnd
    have heq : (gs.bind Prod.snd ++ [entryOf row]) ++ rows.map entryOf
        = gs.bind Prod.snd ++ (row :: rows).map entryOf := by
      rw [List.append_assoc]
      simp
    exact h1.trans (heq ▸ h2.append_right (rows.map entryOf))

theorem execute_bulk_update_eq (rows : List PyDict) (fails : Option JValue → Bool) :
    execute_bulk_update rows fails =
      ((group_update_rows rows).bind Prod.snd).map (fun e => (e.1, !fails e.1)) := by
  unfold execute_bulk_update
  generalize group_update_rows rows = gs
  suffices h : ∀ (gs : UpdateGroups) (init : List (Option JValue × Bool)),
      gs.foldl (fun results g => results ++ g.2.map (fun e => (e.1, !fails e.1))) init =
        init ++ (gs.bind Prod.snd).map (fun e => (e.1, !fails e.1)) by
    simpa using h gs []
  intro gs
  induction gs with
  | nil => intro init; simp
  | cons g gs ih =>
    intro init
    rw [List.foldl_cons, ih]
    simp [List.append_assoc]

theorem execute_bulk_update_perm (rows : List PyDict) (fails : Option JValue → Bool) :
    List.Perm (execute_bulk_update rows fails)
      (rows.map (fun r => (dictGet r "identifier", !fails (dictGet r "identifier")))) := by
  rw [execute_bulk_update_eq]
  have h := group_fold_bind_perm rows [] (by simp)
  have h2 := h.map (fun e => (e.1, !fails e.1))
  simp only [List.nil_bind, List.nil_append, List.map_map] at h2
  exact h2

/-! ## Row partition lemmas -/

theorem partition_rows_spec (sf ex : Finset String) (entities : List Entity) :
    partition_rows sf ex entities =
      ((entities.filter (fun e => e.identifier ∉ ex)).map (fun e => prepare_entity_row e sf),
       (entities.filter (fun e => e.identifier ∈ ex)).map (fun e => prepare_entity_row e sf)) := by
  induction entities with
  | nil => rfl
  | cons e rest ih =>
    simp only [partition_rows, ih]
    by_cases h : e.identifier ∈ ex <;> simp [List.filter_cons, h]

/-- C7: row partition correctness — an entity whose identifier is among the
existing identifiers is routed (as its prepared row) to the update list, and
one whose identifier is absent to the insert list, preserving batch order;
in particular with existing identifiers x1,x2 and batch identifiers x1,x3,
exactly x1 routes to update and x3 to insert. -/
theorem c7_row_partition (table_schema : Schema) (existing : Finset String)
    (entities : List Entity) (fails : Option JValue → Bool) :
    (insert_entities table_schema existing entities fails).rows_to_update =
      (entities.filter (fun e => e.identifier ∈ existing)).map
        (fun e => prepare_entity_row e (fieldNames table_schema)) ∧
    (insert_entities table_schema existing entities fails).rows_to_insert =
      (entities.filter (fun e => e.identifier ∉ existing)).map
        (fun e => prepare_entity_row e (fieldNames table_schema)) ∧
    (insert_entities base_table {"x1", "x2"} [ex1, ex3] fails).rows_to_update =
      [prepare_entity_row ex1 (fieldNames base_table)] ∧
    (insert_entities base_table {"x1", "x2"} [ex1, ex3] fails).rows_to_insert =
      [prepare_entity_row ex3 (fieldNames base_table)] := by
  have h := partition_rows_spec (fieldNames table_schema) existing entities
  refine ⟨?_, ?_, rfl, rfl⟩
  · show (partition_rows (fieldNames table_schema) existing entities).2 = _
    rw [h]
  · show (partition_rows (fieldNames table_schema) existing entities).1 = _
    rw [h]

/-- C6 (amended): a failing per-row update is contained — every update row
still yields exactly one outcome (the outcomes are a permutation of one per
partitioned update row), each row's outcome depends only on its own
statement's failure, the insert half and the set of attempted updates are
unchanged by failures, and the reported counts are the partition sizes; in
particular a failed update stays included in the reported update count
rather than being counted as not-updated. -/
theorem c6_update_failures_contained (table_schema : Schema) (existing : Finset String)
    (entities : List Entity) (fails fails₂ : Option JValue → Bool) :
    List.Perm (insert_entities table_schema existing entities fails).update_results
      ((insert_entities table_schema existing entities fails).rows_to_update.map
        (fun r => (dictGet r "identifier", !fails (dictGet r "identifier")))) ∧
    (insert_entities table_schema existing entities fails).update_results.length =
      (insert_entities table_schema existing entities fails).rows_to_update.length ∧
    (∀ p ∈ (insert_entities table_schema existing entities fails).update_results,
      p.2 = !fails p.1) ∧
    (insert_entities table_schema existing entities fails₂).rows_to_insert =
      (insert_entities table_schema existing entities fails).rows_to_insert ∧
    (insert_entities table_schema existing entities fails₂).update_results.map Prod.fst =
      (insert_entities table_schema existing entities fails).update_results.map Prod.fst ∧
    (insert_entities table_schema existing entities fails).reported_insert_count =
      (insert_entities table_schema existing entities fails).rows_to_insert.length ∧
    (insert_entities table_schema existing entities fails).reported_update_count =
      (insert_entities table_schema existing entities fails).rows_to_update.length := by
  have hperm := execute_bulk_update_perm
    (partition_rows (fieldNames table_schema) existing entities).2 fails
  refine ⟨hperm, by simpa using hperm.length_eq, ?_, rfl, ?_, rfl, rfl⟩
  · intro p hp
    have hmem := hperm.mem_iff.mp hp
    obtain ⟨r, -, rfl⟩ := List.mem_map.mp hmem
    rfl
  · show (execute_bulk_update _ fails₂).map Prod.fst = (execute_bulk_update _ fails).map Prod.fst
    rw [execute_bulk_update_eq, execute_bulk_update_eq, List.map_map, List.map_map]
    rfl

/-- C6 counterexample: with existing rows x1 and x2 both being updated and
the x1 statement failing, the failure is logged in the per-row outcome but
the reported counts are untouched — the run still reports 2 updated rows
(the partition size) and reports no not-updated count, although only one
update succeeded. -/
theorem c6_counterexample :
    (insert_entities base_table {"x1", "x2"} [ex1, ex2] failX1).update_results =
      [(some (.str "x1"), false), (some (.str "x2"), true)] ∧
    ((insert_entities base_table {"x1", "x2"} [ex1, ex2] failX1).update_results.filter
      Prod.snd).length = 1 ∧
    (insert_entities base_table {"x1", "x2"} [ex1, ex2] failX1).reported_update_count = 2 ∧
    (insert_entities base_table {"x1", "x2"} [ex1, ex2] failX1).reported_insert_count = 0 ∧
    (insert_entities base_table {"x1", "x2"} [ex1, ex2]
      (fun _ => false)).reported_update_count = 2 :=
  ⟨rfl, rfl, rfl, rfl, rfl⟩

/-- C8 (amended): the blueprint with one string property url (format url)
and one "many" relation services derives exactly the six-field schema
[identifier REQUIRED STRING, title STRING, created_at TIMESTAMP,
updated_at TIMESTAMP, url STRING, services STRING with the JSON-array
description], and the concrete entity shapes to the row with created_at
and updated_at null, url passed through, and services holding the
json.dumps text of the list — which separates the array items with a comma
followed by a space. -/
theorem c8_concrete_scenario :
    create_schema_from_blueprint bp8 = schema8 ∧
    prepare_entity_row entity8 (fieldNames schema8) =
      [("identifier", .str "e1"), ("title", .str "E1"),
       ("created_at", .null), ("updated_at", .null),
       ("url", .str "http://x"),
       ("services", .str "[\"s1\", \"s2\"]")] :=
  ⟨by decide, rfl⟩

/-- C8 counterexample: the services value is the json.dumps rendering with
a space after the comma, not the claimed exact text without it. -/
theorem c8_counterexample :
    dictGet (prepare_entity_row entity8 (fieldNames schema8)) "services" =
      some (.str "[\"s1\", \"s2\"]") ∧
    "[\"s1\", \"s2\"]" ≠ "[\"s1\",\"s2\"]" :=
  ⟨rfl, by decide⟩

/-! ## Row-shaping step lemmas -/

theorem relationStep_skip (sf : Finset String) (r : PyDict) (k : String) (v : JValue)
    (h : relWrites v = false) : relationStep sf r (k, v) = r := by
  unfold relationStep
  split_ifs with hin
  · cases v with
    | str s => simp [relWrites] at h
    | arr xs => simp [relWrites] at h
    | null => rfl
    | bool b => rfl
    | num n => rfl
    | obj fs => rfl
  · rfl

theorem relationStep_str (sf : Finset String) (r : PyDict) (k : String) (s : String)
    (h : k ∈ sf) : relationStep sf r (k, .str s) = dictSet r k (.str s) := by
  unfold relationStep
  rw [if_pos h]

theorem relationStep_arr (sf : Finset String) (r : PyDict) (k : String) (xs : List JValue)
    (h : k ∈ sf) :
    relationStep sf r (k, .arr xs) = dictSet r k (.str (jsonDumps (.arr xs))) := by
  unfold relationStep
  rw [if_pos h]

theorem dictGet_relationStep_ne (sf : Finset String) (r : PyDict) (q k : String)
    (v : JValue) (h : q ≠ k) : dictGet (relationStep sf r (q, v)) k = dictGet r k := by
  unfold relationStep
  split_ifs with hin
  · cases v with
    | str s => exact dictGet_dictSet_ne r k q _ (Ne.symm h)
    | arr xs => exact dictGet_dictSet_ne r k q _ (Ne.symm h)
    | null => rfl
    | bool b => rfl
    | num n => rfl
    | obj fs => rfl
  · rfl

theorem dictGet_propStep_ne (sf : Finset String) (r : PyDict) (q k : String)
    (v : JValue) (h : q ≠ k) : dictGet (propStep sf r (q, v)) k = dictGet r k := by
  unfold propStep
  split_ifs with hin
  · exact dictGet_dictSet_ne r k q _ (Ne.symm h)
  · rfl

theorem foldl_propStep_no_key (sf : Finset String) (k : String) :
    ∀ (l : PyDict) (r : PyDict), (∀ p ∈ l, p.1 ≠ k) →
      dictGet (l.foldl (propStep sf) r) k = dictGet r k
  | [], _, _ => rfl
  | p :: l, r, h => by
    obtain ⟨q, v⟩ := p
    rw [List.foldl_cons,
      foldl_propStep_no_key sf k l _ (fun p hp => h p (List.mem_cons_of_mem _ hp)),
      dictGet_propStep_ne sf r q k v (h (q, v) (List.mem_cons_self _ _))]

theorem foldl_relationStep_no_write (sf : Finset String) (k : String) :
    ∀ (l : PyDict) (r : PyDict), (∀ p ∈ l, p.1 = k → relWrites p.2 = false) →
      dictGet (l.foldl (relationStep sf) r) k = dictGet r k
  | [], _, _ => rfl
  | p :: l, r, h => by
    obtain ⟨q, v⟩ := p
    rw [List.foldl_cons,
      foldl_relationStep_no_write sf k l _ (fun p hp => h p (List.mem_cons_of_mem _ hp))]
    by_cases hq : q = k
    · rw [relationStep_skip sf r q v (h (q, v) (List.mem_cons_self _ _) hq)]
    · rw [dictGet_relationStep_ne sf r q k v hq]

theorem foldl_propStep_write (sf : Finset String) (k : String) (v : JValue) :
    ∀ (l : PyDict) (r : PyDict), (k, v) ∈ l → (l.map Prod.fst).Nodup → k ∈ sf →
      dictGet (l.foldl (propStep sf) r) k = some v
  | [], _, hmem, _, _ => absurd hmem (List.not_mem_nil _)
  | p :: l, r, hmem, hnd, hsf => by
    rw [List.map_cons, List.nodup_cons] at hnd
    rw [List.foldl_cons]
    rcases List.mem_cons.mp hmem with heq | hmem'
    · have hno : ∀ q ∈ l, q.1 ≠ k := by
        intro q hq hc
        have hqmem : k ∈ l.map Prod.fst := by
          rw [← hc]
          exact List.mem_map_of_mem Prod.fst hq
        have hpk : p.1 = k := by rw [← heq]
        exact hnd.1 (by rw [hpk]; exact hqmem)
      rw [foldl_propStep_no_key sf k l _ hno, ← heq]
      unfold propStep
      rw [if_pos hsf]
      exact dictGet_dictSet_self r k v
    · obtain ⟨q, w⟩ := p
      exact foldl_propStep_write sf k v l (propStep sf r (q, w)) hmem' hnd.2 hsf

theorem foldl_relationStep_write_str (sf : Finset String) (k : String) (s : String) :
    ∀ (l : PyDict) (r : PyDict), (k, .str s) ∈ l → (l.map Prod.fst).Nodup → k ∈ sf →
      dictGet (l.foldl (relationStep sf) r) k = some (.str s)
  | [], _, hmem, _, _ => absurd hmem (List.not_mem_nil _)
  | p :: l, r, hmem, hnd, hsf => by
    rw [List.map_cons, List.nodup_cons] at hnd
    rw [List.foldl_cons]
    rcases List.mem_cons.mp hmem with heq | hmem'
    · have hno : ∀ q ∈ l, q.1 = k → relWrites q.2 = false := by
        intro q hq hc
        have hqmem : k ∈ l.map Prod.fst := by
          rw [← hc]
          exact List.mem_map_of_mem Prod.fst hq
        have hpk : p.1 = k := by rw [← heq]
        exact absurd hqmem (hpk ▸ hnd.1)
      rw [foldl_relationStep_no_write sf k l _ hno, ← heq,
        relationStep_str sf r k s hsf]
      exact dictGet_dictSet_self r k _
    · obtain ⟨q, w⟩ := p
      exact foldl_relationStep_write_str sf k s l (relationStep sf r (q, w)) hmem' hnd.2 hsf

/-- C9 (amended): row shaping resolves duplicate column names by
last-write-wins in the fixed processing order base columns, properties,
relations, calculation, aggregation, mirror — restricted to the writes that
actually occur (relation entries write only string and list values). A
properties entry on a known column (base columns included) overwrites the
base value when no later sub-map writes that column; a string relation
entry overwrites base and properties; a mirror entry, processed last,
overwrites everything. -/
theorem c9_last_write_wins (e : Entity) (sf : Finset String)
    (k₁ k₂ k₃ : String) (v₁ v₃ : JValue) (s₂ : String)
    (h1 : (k₁, v₁) ∈ e.properties) (h2 : (e.properties.map Prod.fst).Nodup)
    (h3 : k₁ ∈ sf)
    (h4 : ∀ p ∈ e.relations, p.1 = k₁ → relWrites p.2 = false)
    (h5 : ∀ p ∈ e.calculationProperties, p.1 ≠ k₁)
    (h6 : ∀ p ∈ e.aggregationProperties, p.1 ≠ k₁)
    (h7 : ∀ p ∈ e.mirrorProperties, p.1 ≠ k₁)
    (h8 : (k₂, .str s₂) ∈ e.relations) (h9 : (e.relations.map Prod.fst).Nodup)
    (h10 : k₂ ∈ sf)
    (h11 : ∀ p ∈ e.calculationProperties, p.1 ≠ k₂)
    (h12 : ∀ p ∈ e.aggregationProperties, p.1 ≠ k₂)
    (h13 : ∀ p ∈ e.mirrorProperties, p.1 ≠ k₂)
    (h14 : (k₃, v₃) ∈ e.mirrorProperties)
    (h15 : (e.mirrorProperties.map Prod.fst).Nodup) (h16 : k₃ ∈ sf) :
    dictGet (prepare_entity_row e sf) k₁ = some v₁ ∧
    dictGet (prepare_entity_row e sf) k₂ = some (.str s₂) ∧
    dictGet (prepare_entity_row e sf) k₃ = some v₃ := by
  refine ⟨?_, ?_, ?_⟩
  · simp only [prepare_entity_row]
    rw [foldl_propStep_no_key sf k₁ e.mirrorProperties _ h7,
      foldl_propStep_no_key sf k₁ e.aggregationProperties _ h6,
      foldl_propStep_no_key sf k₁ e.calculationProperties _ h5,
      foldl_relationStep_no_write sf k₁ e.relations _ h4,
      foldl_propStep_write sf k₁ v₁ e.properties _ h1 h2 h3]
  · simp only [prepare_entity_row]
    rw [foldl_propStep_no_key sf k₂ e.mirrorProperties _ h13,
      foldl_propStep_no_key sf k₂ e.aggregationProperties _ h12,
      foldl_propStep_no_key sf k₂ e.calculationProperties _ h11,
      foldl_relationStep_write_str sf k₂ s₂ e.relations _ h8 h9 h10]
  · simp only [prepare_entity_row]
    rw [foldl_propStep_write sf k₃ v₃ e.mirrorProperties _ h14 h15 h16]

/-- C9 counterexample: an entity whose relations sub-map holds a
null-valued entry named title, with title a known column, keeps the base
title value in the produced row — the sub-map value does not overwrite it. -/
theorem c9_counterexample :
    dictGet (prepare_entity_row entity9c (fieldNames base_table)) "title" =
      some (.str "T") ∧
    some (JValue.str "T") ≠ some JValue.null :=
  ⟨rfl, by simp⟩

/-- Witness for C9: entity9w's property named title, string relation named
created_at and mirror property named updated_at each overwrite the
corresponding base column value. -/
theorem c9_witness :
    dictGet (prepare_entity_row entity9w (fieldNames base_table)) "title" =
      some (.str "P") ∧
    dictGet (prepare_entity_row entity9w (fieldNames base_table)) "created_at" =
      some (.str "R") ∧
    dictGet (prepare_entity_row entity9w (fieldNames base_table)) "updated_at" =
      some (.str "M") :=
  c9_last_write_wins entity9w (fieldNames base_table) "title" "created_at" "updated_at"
    (.str "P") (.str "M") "R"
    (by simp [entity9w]) (by simp [entity9w]) (by decide)
    (by intro p hp hc; simp [entity9w] at hp; subst hp; simp at hc)
    (by simp [entity9w]) (by simp [entity9w])
    (by intro p hp; simp [entity9w] at hp; subst hp; simp)
    (by simp [entity9w]) (by simp [entity9w]) (by decide)
    (by simp [entity9w]) (by simp [entity9w])
    (by intro p hp; simp [entity9w] at hp; subst hp; simp)
    (by simp [entity9w]) (by simp [entity9w]) (by decide)

/-- C10: a relation entry whose value is neither a string nor a list writes
nothing during row shaping — the produced row is the same as if the entry
were absent, even when its column name is a known column; and of the values
that do write, a string passes through unchanged while a list is
JSON-encoded. -/
theorem c10_relation_value_filtering (sf : Finset String) (e : Entity)
    (pre post : PyDict) (k : String) (v : JValue) (r : PyDict) (s : String)
    (xs : List JValue) (hv : relWrites v = false) (hk : k ∈ sf) :
    prepare_entity_row { e with relations := pre ++ (k, v) :: post } sf =
      prepare_entity_row { e with relations := pre ++ post } sf ∧
    relationStep sf r (k, .str s) = dictSet r k (.str s) ∧
    relationStep sf r (k, .arr xs) = dictSet r k (.str (jsonDumps (.arr xs))) := by
  refine ⟨?_, relationStep_str sf r k s hk, relationStep_arr sf r k xs hk⟩
  have hrel : ∀ r0 : PyDict, (pre ++ (k, v) :: post).foldl (relationStep sf) r0 =
      (pre ++ post).foldl (relationStep sf) r0 := by
    intro r0
    rw [List.foldl_append, List.foldl_append, List.foldl_cons,
      relationStep_skip sf _ k v hv]
  simp only [prepare_entity_row]
  rw [hrel]

/-- Witness for C10: a null-valued relation named title on a table whose
columns include title. -/
theorem c10_witness :
    prepare_entity_row { ex1 with relations := [] ++ ("title", JValue.null) :: [] }
        (fieldNames base_table) =
      prepare_entity_row { ex1 with relations := [] ++ [] } (fieldNames base_table) ∧
    relationStep (fieldNames base_table) [] ("title", .str "s1") =
      dictSet [] "title" (.str "s1") ∧
    relationStep (fieldNames base_table) [] ("title", .arr [.str "s1"]) =
      dictSet [] "title" (.str (jsonDumps (.arr [.str "s1"]))) :=
  c10_relation_value_filtering (fieldNames base_table) ex1 [] [] "title" JValue.null
    [] "s1" [.str "s1"] rfl (by decide)

end Datalake
